import Mathlib

/-!
Shallow embedding of the memefax ingestion/normalization pipeline
(src/api_test.py, src/import_single_chat.py, src/db_init.py) and proofs
about it.  Python functions are translated into executable Lean
definitions; SQLite/Postgres tables become lists of row structures,
wall-clock time becomes `ℚ`, and external services (Telethon, the
embedding HTTP server, the filesystem) become explicit parameters.
-/

namespace Memefax

/-! ### Python string helpers

`str.strip()` / `str.split()` as used by `import_single_chat.py`
(ASCII whitespace, which is what the stored chat text uses). -/

/-- Whitespace test matching Python's `str.strip()` / `str.split()`
for ASCII characters. -/
def pyIsSpace (c : Char) : Bool :=
  c == ' ' || c == '\t' || c == '\n' || c == '\r' ||
  c == Char.ofNat 11 || c == Char.ofNat 12

/-- `text.strip()`: drop leading and trailing whitespace. -/
def pyStrip (s : String) : String :=
  String.mk (((s.toList.dropWhile pyIsSpace).reverse.dropWhile pyIsSpace).reverse)

/-- Core of `str.split()` with no separator: maximal runs of
non-whitespace characters. -/
def pyWordsCore (l : List Char) : List (List Char) :=
  (l.foldr
    (fun c acc =>
      if pyIsSpace c then [] :: acc
      else (c :: acc.headD []) :: acc.tail)
    [[]]).filter (fun w => w ≠ [])

/-- `len(text.split())`, the word count used by the passage gate. -/
def pyWordCount (s : String) : ℕ :=
  (pyWordsCore s.toList).length

/-! ### EmbeddingClient: `get_embedding_from_server` -/

/-- Embedding dimension used throughout (`VECTOR(1024)` columns,
`get_embedding_from_server(passage_text, 1024)`). -/
def EMB_DIM : ℕ := 1024

/-- `np.zeros(dim)`. -/
def zeroVec (dim : ℕ) : List ℚ := List.replicate dim 0

/-- `get_embedding_from_server(text, dim)` from `import_single_chat.py`
(identical copy in `semantic_search_poc.py`).  The HTTP interaction is
abstracted into `resp`: `none` is a request failure or a response whose
JSON shape the code cannot index (the `except` path), `some v` is the
successfully extracted raw vector `response.json()[0]["embedding"][0]`.
Vector components are `ℚ` in place of float32. -/
def getEmbeddingFromServer (text : String) (dim : ℕ) (resp : Option (List ℚ)) : List ℚ :=
  if text = "" ∨ pyStrip text = "" then zeroVec dim
  else
    match resp with
    | none => zeroVec dim
    | some v =>
      if dim < v.length then v.take dim
      else if v.length < dim then v ++ List.replicate (dim - v.length) 0
      else v

/-! ### RateLimiter (`api_test.py`)

Simulated clock: `time.time()` values are `ℚ`; `asyncio.sleep(d)`
advances the clock by exactly `d` (the loop is single-threaded, and no
other task runs while `wait()` sleeps). -/

/-- State of `RateLimiter` plus its configuration (`max_requests`,
`interval = 1.0 / max_requests_per_second`). -/
structure RateLimiter where
  maxRequests : ℕ
  interval : ℚ
  lastRequestTime : ℚ
  requestCount : ℕ
  windowStart : ℚ
deriving DecidableEq, Repr

/-- `RateLimiter.__init__(max_requests_per_second)` constructed at
clock value `t0` (`self._window_start = time.time()`). -/
def RateLimiter.init (n : ℕ) (t0 : ℚ) : RateLimiter :=
  ⟨n, 1 / (n : ℚ), 0, 0, t0⟩

/-- `RateLimiter.wait()` entered at clock value `now`; returns the clock
value at which the call completes (which the code also stores into
`self.last_request_time`) together with the updated state.  Mirrors the
source line by line: window reset, count increment, window-overflow
sleep (which re-reads `time.time()` for the new window start), then the
minimum-interval sleep computed from the *entry* clock value. -/
def RateLimiter.wait (s : RateLimiter) (now : ℚ) : ℚ × RateLimiter :=
  let cnt0 : ℕ := if 1 ≤ now - s.windowStart then 0 else s.requestCount
  let ws0 : ℚ := if 1 ≤ now - s.windowStart then now else s.windowStart
  let cnt1 : ℕ := cnt0 + 1
  let now1 : ℚ := if s.maxRequests < cnt1 ∧ 0 < 1 - (now - ws0) then now + (1 - (now - ws0)) else now
  let cnt2 : ℕ := if s.maxRequests < cnt1 ∧ 0 < 1 - (now - ws0) then 1 else cnt1
  let ws1 : ℚ := if s.maxRequests < cnt1 ∧ 0 < 1 - (now - ws0) then now1 else ws0
  let now2 : ℚ := if now - s.lastRequestTime < s.interval
    then now1 + (s.interval - (now - s.lastRequestTime)) else now1
  (now2, ⟨s.maxRequests, s.interval, now2, cnt2, ws1⟩)

/-- A sequence of sequential `wait()` calls.  `(rlRun s t0 δ k).1` is the
clock value at which the `k`-th call completes (`(rlRun s t0 δ 0).1 = t0`
is the initial clock); between the `k`-th completion and the next call
the (single-threaded) caller spends `δ k` time units doing its work. -/
def rlRun (s : RateLimiter) (t0 : ℚ) (δ : ℕ → ℚ) : ℕ → ℚ × RateLimiter
  | 0 => (t0, s)
  | k + 1 => ((rlRun s t0 δ k).2).wait ((rlRun s t0 δ k).1 + δ k)

/-! ### LocalStore cursor and sync-mode selection (`api_test.py`) -/

/-- `SELECT MAX(id) FROM messages`: `none` on an empty table. -/
def sqlMax (stored : List ℤ) : Option ℤ := stored.max?

/-- `Database.get_latest_message_id`: the stored maximum, or `0` when
the table is empty (SQL `MAX` returns NULL). -/
def getLatestMessageId (stored : List ℤ) : ℤ := (sqlMax stored).getD 0

/-- The two crawl modes of §4.2 of the spec. -/
inductive SyncMode
  | fullSync
  | deltaSync
deriving DecidableEq, Repr

/-- A provider-side message as seen by `client.iter_messages`. -/
structure SrcMessage where
  msgId : ℤ
  payload : String
deriving DecidableEq, Repr

/-- `client.iter_messages(chat, min_id=m)` / `client.iter_messages(chat)`:
with `min_id` set, Telethon yields exactly the messages with id
strictly greater than `min_id` (its documented contract; the provider
is an external collaborator specified at this interface). -/
def iterMessages (source : List SrcMessage) (minId : Option ℤ) : List SrcMessage :=
  match minId with
  | some m => source.filter (fun x => decide (m < x.msgId))
  | none => source

/-- Result of one `download_messages` run: the chosen sync mode and the
records that were fetched and persisted (each iterated record is
upserted into the LocalStore by `db.insert_message`). -/
structure CrawlResult where
  mode : SyncMode
  persisted : List SrcMessage
deriving DecidableEq, Repr

/-- `download_messages` reduced to its sync-mode/persistence skeleton:
reads the LocalStore cursor, decides the mode by Python truthiness of
`latest_msg_id`, returns early when the provider's advisory
`total_messages.total` is `0`, and otherwise iterates (with
`min_id=latest_msg_id` in delta mode) and persists every yielded
record. -/
def downloadMessages (stored : List ℤ) (source : List SrcMessage) (total : ℕ) : CrawlResult :=
  let latest := getLatestMessageId stored
  let mode := if latest ≠ 0 then SyncMode.deltaSync else SyncMode.fullSync
  if total = 0 then ⟨mode, []⟩
  else ⟨mode, iterMessages source (if latest ≠ 0 then some latest else none)⟩

/-! ### AttachmentFetcher (`api_test.py`): media typing, size gate,
`download_media_file` -/

/-- `MAX_MEDIA_SIZE = 50 * 1024 * 1024` (50 MiB). -/
def MAX_MEDIA_SIZE : ℕ := 50 * 1024 * 1024

/-- A Telethon media object as inspected by `get_media_type` /
`get_media_size`: a photo, a document (with its `document.size`, its
`document.mime_type`, and the `file_name` of the first attribute that
has one, if any), or any other media kind. -/
inductive TLMedia
  | photo
  | document (size : ℕ) (mimeType : Option String) (fileName : Option String)
  | other
deriving DecidableEq, Repr

/-- `get_media_size`: `document.size` for documents, `None` for photos
("typically small, return None to allow download") and for anything
else. -/
def getMediaSize : TLMedia → Option ℕ
  | TLMedia.document sz _ _ => some sz
  | TLMedia.photo => none
  | TLMedia.other => none

/-- `os.path.splitext(name)[1]`: the extension including its dot, or
`""`; a dot with only dots before it does not start an extension. -/
def pyExt (name : String) : String :=
  let rev := name.toList.reverse
  let post := rev.takeWhile (fun c => c ≠ '.')
  match rev.dropWhile (fun c => c ≠ '.') with
  | [] => ""
  | _ :: before =>
    if before.any (fun c => c ≠ '.') then String.mk ('.' :: post.reverse) else ""

/-- `mime_type.split('/')[-1]`. -/
def afterLastSlash (s : String) : String :=
  String.mk ((s.toList.reverse.takeWhile (fun c => c ≠ '/')).reverse)

def videoSlash : String := "video/"

def audioSlash : String := "audio/"

def imageSlash : String := "image/"

def mpegStr : String := "mpeg"

def dotStr : String := "."

def datExt : String := ".dat"

def photoStr : String := "photo"

def videoStr : String := "video"

def audioStr : String := "audio"

def documentStr : String := "document"

def mp4Ext : String := ".mp4"

def mp3Ext : String := ".mp3"

def oggExt : String := ".ogg"

def jpgExt : String := ".jpg"

def skippedStr : String := "skipped"

/-- `'mpeg' in mime_type`: substring test. -/
def strContains (hay needle : String) : Bool :=
  (List.range (hay.toList.length + 1)).any
    (fun i => needle.toList.isPrefixOf (hay.toList.drop i))

/-- `get_media_type(media)`: `(kind, extension)` or `None`.  Follows the
source's branch order: photo; document with truthy mime type starting
with `video/`, `audio/`, `image/`; otherwise the first attribute
carrying a `file_name`; otherwise the generic `('document', '.dat')`;
any other media yields `(None, None)`. -/
def getMediaType : TLMedia → Option (String × String)
  | TLMedia.photo => some (photoStr, jpgExt)
  | TLMedia.document _ mime fname =>
    let fromAttrs : String × String :=
      match fname with
      | some n => (documentStr, if pyExt n ≠ "" then pyExt n else datExt)
      | none => (documentStr, datExt)
    (match mime with
     | some m =>
       if m ≠ "" then
         if m.startsWith videoSlash then some (videoStr, mp4Ext)
         else if m.startsWith audioSlash then
           some (audioStr, if strContains m mpegStr then mp3Ext else oggExt)
         else if m.startsWith imageSlash then
           some (photoStr, dotStr ++ afterLastSlash m)
         else some fromAttrs
       else some fromAttrs
     | none => some fromAttrs)
  | TLMedia.other => none

/-- The media descriptor dict built by `download_media_file`.  The
human-readable `skipped_reason` f-string is abstracted to the pair
`(media_size, MAX_MEDIA_SIZE)` it is formatted from (via
`format_size`); no claim depends on its text. -/
structure MediaDescriptor where
  mdType : String
  filename : Option String
  size : ℕ
  skippedReason : Option (ℕ × ℕ)
deriving DecidableEq, Repr

/-- External world for one `download_media_file` call: whether the
deterministic filepath already exists on disk, the byte size
`os.path.getsize` reports for it (after the download, in the fresh
case), and whether `message.download_media` succeeds (its exception is
caught and turned into a `None` result). -/
structure FetchEnv where
  fileExists : Bool
  diskSize : ℕ
  downloadOk : Bool
deriving DecidableEq, Repr

/-- Outcome of `download_media_file`: the returned descriptor (`none`
for Python `None`) and whether `message.download_media` was invoked. -/
structure FetchOutcome where
  descriptor : Option MediaDescriptor
  downloadAttempted : Bool
deriving DecidableEq, Repr

def underscoreStr : String := "_"

/-- `f"{media_type}_{message.id}_{timestamp}{extension}"`. -/
def mediaFilename (mt : String) (msgId : ℤ) (ts : String) (ext : String) : String :=
  mt ++ underscoreStr ++ toString msgId ++ underscoreStr ++ ts ++ ext

/-- `download_media_file(message, media_dir, rate_limiter)`.  The size
gate is Python's `if media_size and media_size > MAX_MEDIA_SIZE`: a
`None` or `0` size is falsy and bypasses the gate. -/
def downloadMediaFile (media : Option TLMedia) (msgId : ℤ) (ts : String)
    (env : FetchEnv) : FetchOutcome :=
  match media with
  | none => ⟨none, false⟩
  | some m =>
    let msz := (getMediaSize m).getD 0
    if msz ≠ 0 ∧ MAX_MEDIA_SIZE < msz then
      ⟨some ⟨skippedStr, none, msz, some (msz, MAX_MEDIA_SIZE)⟩, false⟩
    else
      match getMediaType m with
      | none => ⟨none, false⟩
      | some mte =>
        if env.fileExists then
          ⟨some ⟨mte.1, some (mediaFilename mte.1 msgId ts mte.2), env.diskSize, none⟩, false⟩
        else if env.downloadOk then
          ⟨some ⟨mte.1, some (mediaFilename mte.1 msgId ts mte.2), env.diskSize, none⟩, true⟩
        else ⟨none, true⟩

/-! ### ManifestDatabase (`api_test.py`): `chats` table and
`update_chat`.  ISO timestamp strings are modelled as `ℚ` clock values
(ISO-8601 UTC strings compare like the instants they denote). -/

/-- The manifest columns that `update_chat` copies verbatim from
`chat_data` in both its INSERT and its UPDATE branch. -/
structure ChatExtra where
  broadcast : Option Bool
  participantsCount : Option ℤ
  kickedCount : Option ℤ
  leftCount : Option ℤ
  onlineCount : Option ℤ
  messagesCount : Option ℤ
  lastMessageDate : Option ℚ
  firstMessageDate : Option ℚ
  createdDate : Option ℚ
  phone : Option String
  isBot : Option Bool
deriving DecidableEq, Repr

/-- The `chat_data` dict handed to `update_chat` (as produced by
`get_full_chat_info`); `joinDate = none` models the `join_date` key
being absent. -/
structure ChatData where
  chatId : ℤ
  name : String
  ctype : String
  username : Option String
  joinDate : Option ℚ
  extra : ChatExtra
deriving DecidableEq, Repr

/-- A row of the `chats` table. -/
structure ChatRow where
  chatId : ℤ
  name : String
  ctype : String
  username : Option String
  firstSeen : ℚ
  lastSeen : ℚ
  lastUpdated : ℚ
  joinDate : Option ℚ
  extra : ChatExtra
deriving DecidableEq, Repr

/-- `ManifestDatabase.update_chat(chat_data)` at clock value `now`
(`current_time = datetime.now(timezone.utc).isoformat()`).  Existing
row: preserve `join_date` when the incoming dict lacks one, then UPDATE
every listed column — the SET list does not mention `first_seen`.
No row: INSERT with `first_seen = last_seen = last_updated = now`. -/
def updateChat (store : List ChatRow) (cd : ChatData) (now : ℚ) : List ChatRow :=
  match store.find? (fun r => r.chatId == cd.chatId) with
  | some _ =>
    store.map (fun row =>
      if row.chatId == cd.chatId then
        { chatId := row.chatId
          name := cd.name
          ctype := cd.ctype
          username := cd.username
          firstSeen := row.firstSeen
          lastSeen := now
          lastUpdated := now
          joinDate := match cd.joinDate, row.joinDate with
            | none, some j => some j
            | jd, _ => jd
          extra := cd.extra }
      else row)
  | none =>
    store ++ [⟨cd.chatId, cd.name, cd.ctype, cd.username, now, now, now, cd.joinDate, cd.extra⟩]

/-! ### Warehouse (`db_init.py` schema) and NormalizationImporter
(`import_single_chat.py`) -/

/-- A Python value as stored in a media descriptor dict / bound into an
SQL parameter (`vNone` is Python `None`, i.e. SQL NULL). -/
inductive PyVal
  | vStr (s : String)
  | vInt (n : ℤ)
  | vNone
deriving DecidableEq, Repr

def keyType : String := "type"

def keyFilename : String := "filename"

def keySize : String := "size"

def keySkipReason : String := "skipped_reason"

def keyName : String := "name"

def keyMime : String := "mime_type"

def keyPath : String := "path"

/-- `d.get(k)`: the value under string key `k`, or Python `None`. -/
def dictGet (d : List (String × PyVal)) (k : String) : PyVal :=
  match d.find? (fun kv => kv.1 == k) with
  | some kv => kv.2
  | none => PyVal.vNone

/-- Stand-in for the `format_size`-based `skipped_reason` string; only
its presence under the `skipped_reason` key matters to any claim. -/
def reasonText (p : ℕ × ℕ) : String :=
  toString p.1 ++ underscoreStr ++ toString p.2

/-- `json.dumps` of a `download_media_file` descriptor, recovered by the
importer's `json.loads`: exactly the keys `type`, `filename`, `size`,
and (for a skip descriptor) `skipped_reason`. -/
def descriptorToDict (d : MediaDescriptor) : List (String × PyVal) :=
  [(keyType, PyVal.vStr d.mdType),
   (keyFilename, match d.filename with | some f => PyVal.vStr f | none => PyVal.vNone),
   (keySize, PyVal.vInt (d.size : ℤ))] ++
  (match d.skippedReason with
   | some p => [(keySkipReason, PyVal.vStr (reasonText p))]
   | none => [])

/-- The stored `media_files` JSON as the importer sees it after
`json.loads`: either malformed (raising inside the `try`) or a list of
descriptor dicts. -/
inductive MediaFilesField
  | malformed
  | parsed (files : List (List (String × PyVal)))
deriving DecidableEq, Repr

/-- A row of the LocalStore `messages` table as read by `import_chat`
(`SELECT * FROM messages ORDER BY date ASC`); `mediaFiles = none` is a
NULL column (Python-falsy, so the attachment block is skipped). -/
structure MsgRow where
  msgId : ℤ
  date : String
  fromId : Option ℤ
  text : Option String
  sender : Option String
  mediaFiles : Option MediaFilesField
deriving DecidableEq, Repr

structure SourceRow where
  sid : ℕ
  name : String
  kind : String
deriving DecidableEq, Repr

structure ContactRow where
  cid : ℕ
  canonical : String
deriving DecidableEq, Repr

structure DocRow where
  did : ℕ
  sourceId : ℕ
  extId : String
  threadId : String
  sentTs : String
  authorContactId : Option ℕ
  rawBody : String
  cleanBody : String
deriving DecidableEq, Repr

structure AttRow where
  aid : ℕ
  docId : ℕ
  filename : PyVal
  mimeType : PyVal
  filePath : PyVal
deriving DecidableEq, Repr

structure PassRow where
  pid : ℕ
  docId : ℕ
  level : Char
  startTok : ℕ
  endTok : ℕ
  text : String
deriving DecidableEq, Repr

structure PembRow where
  eid : ℕ
  passageId : ℕ
  modelId : String
  embedding : List ℚ
deriving DecidableEq, Repr

/-- The warehouse tables touched by `import_chat`, with one BIGSERIAL
counter per table. -/
structure Warehouse where
  sources : List SourceRow
  contacts : List ContactRow
  documents : List DocRow
  attachments : List AttRow
  passages : List PassRow
  passageEmbeddings : List PembRow
  nextSource : ℕ
  nextContact : ℕ
  nextDoc : ℕ
  nextAtt : ℕ
  nextPass : ℕ
  nextPemb : ℕ
deriving DecidableEq, Repr

/-- The six row counts the idempotency property speaks about. -/
def rowCounts (w : Warehouse) : ℕ × ℕ × ℕ × ℕ × ℕ × ℕ :=
  (w.sources.length, w.contacts.length, w.documents.length,
   w.attachments.length, w.passages.length, w.passageEmbeddings.length)

/-- `SELECT id FROM source WHERE name = %s`. -/
def findSource (w : Warehouse) (n : String) : Option SourceRow :=
  w.sources.find? (fun r => r.name == n)

/-- `SELECT id FROM contact WHERE canonical = %s`. -/
def findContact (w : Warehouse) (s : String) : Option ContactRow :=
  w.contacts.find? (fun r => r.canonical == s)

/-- The `(source_id, ext_id)` uniqueness probe behind
`ON CONFLICT (source_id, ext_id) DO NOTHING`. -/
def findDoc (w : Warehouse) (sid : ℕ) (ext : String) : Option DocRow :=
  w.documents.find? (fun r => r.sourceId == sid && r.extId == ext)

def chatKindStr : String := "chat"

def modelLlama : String := "llama-server"

/-- The importer's source lookup-or-insert (`name = str(chat_id)`,
`kind = 'chat'`). -/
def ensureSource (w : Warehouse) (chatId : ℤ) : ℕ × Warehouse :=
  match findSource w (toString chatId) with
  | some r => (r.sid, w)
  | none =>
    (w.nextSource,
     { w with
        sources := w.sources ++ [⟨w.nextSource, toString chatId, chatKindStr⟩]
        nextSource := w.nextSource + 1 })

/-- Python truthiness of the `sender` column (`if sender:`). -/
def senderTruthy : Option String → Bool
  | some s => s ≠ ""
  | none => false

/-- Contact resolution: find-by-canonical or insert (the stored
`sender` JSON string is used verbatim as the canonical name). -/
def resolveContact (w : Warehouse) (sender : Option String) : Option ℕ × Warehouse :=
  match sender with
  | some s =>
    if s = "" then (none, w)
    else
      match findContact w s with
      | some c => (some c.cid, w)
      | none =>
        (some w.nextContact,
         { w with
            contacts := w.contacts ++ [⟨w.nextContact, s⟩]
            nextContact := w.nextContact + 1 })
  | none => (none, w)

/-- One attachment INSERT: the importer reads the keys `name`,
`mime_type` and `path` from the parsed descriptor dict. -/
def mkAttRow (aid docId : ℕ) (f : List (String × PyVal)) : AttRow :=
  ⟨aid, docId, dictGet f keyName, dictGet f keyMime, dictGet f keyPath⟩

/-- Attachment rows for one record's parsed file list, with sequential
serial ids. -/
def attRowsFrom : ℕ → ℕ → List (List (String × PyVal)) → List AttRow
  | _, _, [] => []
  | a, d, f :: fs => mkAttRow a d f :: attRowsFrom (a + 1) d fs

/-- The attachment block of `import_chat`: skipped for a falsy
`media_files` column; a `json.loads` failure is caught and logged
(leaving no rows); otherwise one row per descriptor. -/
def insertAttachments (w : Warehouse) (docId : ℕ) : Option MediaFilesField → Warehouse
  | none => w
  | some MediaFilesField.malformed => w
  | some (MediaFilesField.parsed fs) =>
    { w with
       attachments := w.attachments ++ attRowsFrom w.nextAtt docId fs
       nextAtt := w.nextAtt + fs.length }

/-- The passage row inserted for trimmed text `pt`: level `'P'`,
tokens `0 .. len(pt.split())`, text the whole trimmed message. -/
def addPass (w : Warehouse) (docId : ℕ) (pt : String) : Warehouse :=
  { w with
     passages := w.passages ++ [⟨w.nextPass, docId, 'P', 0, pyWordCount pt, pt⟩]
     nextPass := w.nextPass + 1 }

/-- The passage-embedding row for passage `passId`: the
`get_embedding_from_server(passage_text, 1024)` vector under model id
`'llama-server'`.  (`emb` is a NumPy array, never a `str`, so the
source's `isinstance(emb, str)` branch is dead code.) -/
def addPemb (embResp : String → Option (List ℚ)) (w : Warehouse) (passId : ℕ)
    (pt : String) : Warehouse :=
  { w with
     passageEmbeddings :=
       w.passageEmbeddings ++ [⟨w.nextPemb, passId, modelLlama, getEmbeddingFromServer pt EMB_DIM (embResp pt)⟩]
     nextPemb := w.nextPemb + 1 }

/-- The passage gate and inserts:
`if passage_text and len(passage_text.split()) > 10`. -/
def insertPassage (embResp : String → Option (List ℚ)) (w : Warehouse) (docId : ℕ)
    (text : String) : Warehouse :=
  let pt := pyStrip text
  if pt ≠ "" ∧ 10 < pyWordCount pt then
    addPemb embResp (addPass w docId pt) w.nextPass pt
  else w

/-- The document row inserted for message `r` (`ext_id = str(msg_id)`,
`thread_id = str(chat_id)`, `raw_body = clean_body = text`). -/
def docRowOf (w : Warehouse) (chatId : ℤ) (srcId : ℕ) (r : MsgRow)
    (contactId : Option ℕ) (text : String) : DocRow :=
  ⟨w.nextDoc, srcId, toString r.msgId, toString chatId, r.date, contactId, text, text⟩

/-- The loop body of `import_chat` for one record, exception-free path:
contact resolution, document insert with conflict-skip (`continue`),
attachments, passage + embedding.  `text = row['text'] or ''`. -/
def processRecordNF (embResp : String → Option (List ℚ)) (chatId : ℤ) (srcId : ℕ)
    (w : Warehouse) (r : MsgRow) : Warehouse :=
  let text := r.text.getD ""
  let rc := resolveContact w r.sender
  match findDoc rc.2 srcId (toString r.msgId) with
  | some _ => rc.2
  | none =>
    let docId := rc.2.nextDoc
    let w2 := { rc.2 with
                 documents := rc.2.documents ++ [docRowOf rc.2 chatId srcId r rc.1 text]
                 nextDoc := docId + 1 }
    let w3 := insertAttachments w2 docId r.mediaFiles
    insertPassage embResp w3 docId text

/-- `import_chat` with no database exceptions: ensure the source row,
then fold the per-record body over the date-ordered records. -/
def importChatNF (embResp : String → Option (List ℚ)) (chatId : ℤ)
    (w : Warehouse) (recs : List MsgRow) : Warehouse :=
  let p := ensureSource w chatId
  recs.foldl (processRecordNF embResp chatId p.1) p.2

/-- The statements of the loop body at which the database driver can
raise (the embedding HTTP call itself cannot: it catches everything and
degrades to a zero vector). -/
inductive Step
  | contact
  | document
  | passage
  | embedding
deriving DecidableEq, Repr

/-- Fault oracle: `faults m st = true` means the database raises when
the statement of kind `st` executes for the record with id `m`. -/
def FaultOracle : Type := ℤ → Step → Bool

def noFaults : FaultOracle := fun _ _ => false

/-- `import_chat`'s loop body with injected database exceptions,
faithful to the Python control flow: only the attachment block sits in
a `try`/`except` (and its `json.loads` failure is already absorbed by
`insertAttachments`); an exception raised at any other statement
propagates out of the loop. -/
def processRecordE (faults : FaultOracle) (embResp : String → Option (List ℚ))
    (chatId : ℤ) (srcId : ℕ) (w : Warehouse) (r : MsgRow) :
    Except (ℤ × Step) Warehouse :=
  let text := r.text.getD ""
  if senderTruthy r.sender && faults r.msgId Step.contact then
    Except.error (r.msgId, Step.contact)
  else
    let rc := resolveContact w r.sender
    if faults r.msgId Step.document then Except.error (r.msgId, Step.document)
    else
      match findDoc rc.2 srcId (toString r.msgId) with
      | some _ => Except.ok rc.2
      | none =>
        let docId := rc.2.nextDoc
        let w2 := { rc.2 with
                     documents := rc.2.documents ++ [docRowOf rc.2 chatId srcId r rc.1 text]
                     nextDoc := docId + 1 }
        let w3 := insertAttachments w2 docId r.mediaFiles
        let pt := pyStrip text
        if pt ≠ "" ∧ 10 < pyWordCount pt then
          if faults r.msgId Step.passage then Except.error (r.msgId, Step.passage)
          else
            let w4 := addPass w3 docId pt
            if faults r.msgId Step.embedding then Except.error (r.msgId, Step.embedding)
            else Except.ok (addPemb embResp w4 w3.nextPass pt)
        else Except.ok w3

/-- `import_chat` with injected database exceptions: an error anywhere
in the fold aborts the whole run (there is no surrounding handler). -/
def importChatE (faults : FaultOracle) (embResp : String → Option (List ℚ))
    (chatId : ℤ) (w : Warehouse) (recs : List MsgRow) :
    Except (ℤ × Step) Warehouse :=
  let p := ensureSource w chatId
  recs.foldlM (processRecordE faults embResp chatId p.1) p.2

/-- Replace a malformed stored `media_files` JSON by an absent one. -/
def scrubMalformed (r : MsgRow) : MsgRow :=
  { r with mediaFiles := match r.mediaFiles with
      | some MediaFilesField.malformed => none
      | x => x }

/-! ### General list lemmas used throughout -/

theorem find?_append_none {α} {p : α → Bool} {l t : List α} (h : l.find? p = none) :
    (l ++ t).find? p = t.find? p := by
  rw [List.find?_append, h, Option.none_or]

theorem find?_append_some {α} {p : α → Bool} {l : List α} {x : α} (t : List α)
    (h : l.find? p = some x) : (l ++ t).find? p = some x := by
  rw [List.find?_append, h]
  rfl

theorem find?_map_pred {α} (f : α → α) (p : α → Bool) (l : List α)
    (hpf : ∀ x, p (f x) = p x) : (l.map f).find? p = (l.find? p).map f := by
  rw [List.find?_map, show (p ∘ f) = p from funext hpf]

theorem find?_append_right_isSome {α} (p : α → Bool) (l : List α) {x : α} (hx : p x = true) :
    ∃ y, (l ++ [x]).find? p = some y := by
  cases hl : l.find? p with
  | some y => exact ⟨y, find?_append_some _ hl⟩
  | none => exact ⟨x, by rw [find?_append_none hl, List.find?_singleton, if_pos hx]⟩

/-! ### C5: embedding dimension invariant -/

/-- C5: for every input text and embedding-server response,
`get_embedding_from_server(text, dim)` returns a vector of length
exactly `dim`; a failed request or malformed response yields the
all-zero vector, as does empty or whitespace-only text; a longer raw
vector is truncated to its first `dim` components and a shorter one is
zero-padded. -/
theorem getEmbedding_dim_invariant (text : String) (dim : ℕ) (resp : Option (List ℚ)) :
    (getEmbeddingFromServer text dim resp).length = dim
    ∧ getEmbeddingFromServer text dim none = zeroVec dim
    ∧ (pyStrip text = "" → getEmbeddingFromServer text dim resp = zeroVec dim)
    ∧ (∀ v, resp = some v → pyStrip text ≠ "" →
        (dim < v.length → getEmbeddingFromServer text dim resp = v.take dim)
        ∧ (v.length < dim →
            getEmbeddingFromServer text dim resp = v ++ List.replicate (dim - v.length) 0)) := by
  have hlen : (getEmbeddingFromServer text dim resp).length = dim := by
    unfold getEmbeddingFromServer
    split_ifs with h
    · simp [zeroVec]
    · cases resp with
      | none => simp [zeroVec]
      | some v =>
        simp only
        split_ifs with h1 h2
        · simp [List.length_take]
          omega
        · simp
          omega
        · omega
  refine ⟨hlen, ?_, ?_, ?_⟩
  · unfold getEmbeddingFromServer
    split_ifs <;> rfl
  · intro hstrip
    unfold getEmbeddingFromServer
    rw [if_pos (Or.inr hstrip)]
  · rintro v rfl hstrip
    have hne : ¬(text = "" ∨ pyStrip text = "") := by
      rintro (rfl | h)
      · exact hstrip rfl
      · exact hstrip h
    constructor
    · intro hlt
      unfold getEmbeddingFromServer
      rw [if_neg hne]
      simp only [if_pos hlt]
    · intro hlt
      unfold getEmbeddingFromServer
      rw [if_neg hne]
      simp only [if_neg (by omega : ¬ dim < v.length), if_pos hlt]

/-- Witness for C5: a 4-component response truncated to dimension 3 for
non-blank text. -/
theorem getEmbedding_dim_invariant_witness :
    getEmbeddingFromServer ("hi") 3 (some [1, 2, 3, 4]) = [1, 2, 3] :=
  ((getEmbedding_dim_invariant ("hi") 3 (some [1, 2, 3, 4])).2.2.2
    [1, 2, 3, 4] rfl (by decide)).1 (by decide)

/-! ### C4: size-gate boundary -/

theorem getMediaType_document_isSome (sz : ℕ) (mime fn : Option String) :
    ∃ mt ext, getMediaType (TLMedia.document sz mime fn) = some (mt, ext) := by
  cases mime with
  | none => cases fn <;> exact ⟨_, _, rfl⟩
  | some m =>
    cases fn <;>
      · simp only [getMediaType]
        split_ifs <;> exact ⟨_, _, rfl⟩

theorem getMediaType_ne_skipped (m : TLMedia) (mt ext : String)
    (hmt : getMediaType m = some (mt, ext)) : mt ≠ skippedStr := by
  cases m with
  | photo =>
    simp only [getMediaType, Option.some.injEq, Prod.mk.injEq] at hmt
    rw [← hmt.1]
    decide
  | other => simp [getMediaType] at hmt
  | document sz mime fn =>
    cases mime with
    | none =>
      cases fn <;>
        · simp only [getMediaType, Option.some.injEq, Prod.mk.injEq] at hmt
          rw [← hmt.1]
          decide
    | some s =>
      cases fn <;>
        · simp only [getMediaType] at hmt
          split_ifs at hmt <;>
            · simp only [Option.some.injEq, Prod.mk.injEq] at hmt
              rw [← hmt.1]
              decide

/-- Evaluation of `download_media_file` when the size gate does not
fire and the media has a recognized type. -/
theorem downloadMediaFile_typed (msgId : ℤ) (ts : String) (env : FetchEnv) {m : TLMedia}
    {mt ext : String}
    (hg : ¬((getMediaSize m).getD 0 ≠ 0 ∧ MAX_MEDIA_SIZE < (getMediaSize m).getD 0))
    (hmt : getMediaType m = some (mt, ext)) :
    downloadMediaFile (some m) msgId ts env =
      if env.fileExists then
        ⟨some ⟨mt, some (mediaFilename mt msgId ts ext), env.diskSize, none⟩, false⟩
      else if env.downloadOk then
        ⟨some ⟨mt, some (mediaFilename mt msgId ts ext), env.diskSize, none⟩, true⟩
      else ⟨none, true⟩ := by
  simp only [downloadMediaFile]
  rw [if_neg hg, hmt]

/-- Evaluation of `download_media_file` when the size gate does not
fire and the media has no recognized type. -/
theorem downloadMediaFile_untyped (msgId : ℤ) (ts : String) (env : FetchEnv) {m : TLMedia}
    (hg : ¬((getMediaSize m).getD 0 ≠ 0 ∧ MAX_MEDIA_SIZE < (getMediaSize m).getD 0))
    (hmt : getMediaType m = none) :
    downloadMediaFile (some m) msgId ts env = ⟨none, false⟩ := by
  simp only [downloadMediaFile]
  rw [if_neg hg, hmt]

/-- Evaluation of `download_media_file` when the size gate fires. -/
theorem downloadMediaFile_skip (msgId : ℤ) (ts : String) (env : FetchEnv) {m : TLMedia}
    (hg : (getMediaSize m).getD 0 ≠ 0 ∧ MAX_MEDIA_SIZE < (getMediaSize m).getD 0) :
    downloadMediaFile (some m) msgId ts env =
      ⟨some ⟨skippedStr, none, (getMediaSize m).getD 0,
         some ((getMediaSize m).getD 0, MAX_MEDIA_SIZE)⟩, false⟩ := by
  simp only [downloadMediaFile]
  rw [if_pos hg]

/-- C4: a document whose reported size is exactly
`MAX_MEDIA_SIZE = 50 * 1024 * 1024` bytes passes the gate and is
downloaded (for a fresh path with a working transfer the download call
is issued and the returned descriptor is not a skip), while a document
one byte over the cap yields, for every filesystem/transfer state, the
skip descriptor with type `'skipped'`, no filename, the offending size,
and a reason recording that size and the cap, with no download. -/
theorem size_gate_boundary (mime fname : Option String) (msgId : ℤ) (ts : String) (dsz : ℕ) :
    ((downloadMediaFile (some (TLMedia.document MAX_MEDIA_SIZE mime fname)) msgId ts
        ⟨false, dsz, true⟩).downloadAttempted = true
      ∧ ∀ d, (downloadMediaFile (some (TLMedia.document MAX_MEDIA_SIZE mime fname)) msgId ts
          ⟨false, dsz, true⟩).descriptor = some d → d.mdType ≠ skippedStr)
    ∧ ∀ env, downloadMediaFile (some (TLMedia.document (MAX_MEDIA_SIZE + 1) mime fname)) msgId ts env
        = ⟨some ⟨skippedStr, none, MAX_MEDIA_SIZE + 1, some (MAX_MEDIA_SIZE + 1, MAX_MEDIA_SIZE)⟩,
           false⟩ := by
  obtain ⟨mt, ext, hmt⟩ := getMediaType_document_isSome MAX_MEDIA_SIZE mime fname
  have hsize : getMediaSize (TLMedia.document MAX_MEDIA_SIZE mime fname)
      = some MAX_MEDIA_SIZE := rfl
  have hgate : ¬((getMediaSize (TLMedia.document MAX_MEDIA_SIZE mime fname)).getD 0 ≠ 0
      ∧ MAX_MEDIA_SIZE < (getMediaSize (TLMedia.document MAX_MEDIA_SIZE mime fname)).getD 0) := by
    rw [hsize, Option.getD_some]
    rintro ⟨-, h2⟩
    exact lt_irrefl _ h2
  constructor
  · constructor
    · rw [downloadMediaFile_typed _ _ _ hgate hmt]
      rfl
    · intro d hd
      rw [downloadMediaFile_typed _ _ _ hgate hmt] at hd
      have hd2 : (⟨mt, some (mediaFilename mt msgId ts ext), dsz, none⟩ : MediaDescriptor) = d :=
        Option.some.inj hd
      rw [← hd2]
      exact getMediaType_ne_skipped _ _ _ hmt
  · intro env
    have hsize2 : getMediaSize (TLMedia.document (MAX_MEDIA_SIZE + 1) mime fname)
        = some (MAX_MEDIA_SIZE + 1) := rfl
    have hg2 : ((getMediaSize (TLMedia.document (MAX_MEDIA_SIZE + 1) mime fname)).getD 0 ≠ 0
        ∧ MAX_MEDIA_SIZE < (getMediaSize (TLMedia.document (MAX_MEDIA_SIZE + 1) mime fname)).getD 0) := by
      rw [hsize2, Option.getD_some]
      exact ⟨Nat.succ_ne_zero _, Nat.lt_succ_self _⟩
    rw [downloadMediaFile_skip _ _ _ hg2, hsize2, Option.getD_some]

/-- Witness for C4: a document one byte over the cap is skipped with
the exact skip descriptor. -/
theorem size_gate_boundary_witness :
    downloadMediaFile (some (TLMedia.document (MAX_MEDIA_SIZE + 1) none none)) 3
        ("20240101_000000") ⟨false, 0, true⟩
      = ⟨some ⟨skippedStr, none, MAX_MEDIA_SIZE + 1,
           some (MAX_MEDIA_SIZE + 1, MAX_MEDIA_SIZE)⟩, false⟩ :=
  (size_gate_boundary none none 3 ("20240101_000000") 0).2 ⟨false, 0, true⟩

/-! ### C9: media with no reported size -/

/-- C9 amended: a reported size of `None` or `0` bypasses the 50 MiB
gate — no skip descriptor is ever produced for such media — and the
download proceeds whenever the media has a recognized type (photo or
document) and the target file is not already on disk; media that is
neither photo nor document is instead dropped (`None`, no download) at
the media-type check. -/
theorem size_gate_bypass_amended (m : TLMedia) (msgId : ℤ) (ts : String) (env : FetchEnv)
    (h : getMediaSize m = none ∨ getMediaSize m = some 0) :
    (∀ d, (downloadMediaFile (some m) msgId ts env).descriptor = some d →
        d.mdType ≠ skippedStr ∧ d.skippedReason = none)
    ∧ (∀ mt ext, getMediaType m = some (mt, ext) → env.fileExists = false →
        (downloadMediaFile (some m) msgId ts env).downloadAttempted = true)
    ∧ (getMediaType m = none → downloadMediaFile (some m) msgId ts env = ⟨none, false⟩) := by
  have hsz : (getMediaSize m).getD 0 = 0 := by
    rcases h with h | h <;> rw [h] <;> rfl
  have hgate : ¬((getMediaSize m).getD 0 ≠ 0 ∧ MAX_MEDIA_SIZE < (getMediaSize m).getD 0) :=
    fun hc => hc.1 hsz
  refine ⟨?_, ?_, ?_⟩
  · intro d hd
    cases hmt : getMediaType m with
    | none =>
      rw [downloadMediaFile_untyped _ _ _ hgate hmt] at hd
      exact Option.noConfusion hd
    | some p =>
      obtain ⟨mt, ext⟩ := p
      rw [downloadMediaFile_typed _ _ _ hgate hmt] at hd
      cases hfe : env.fileExists with
      | true =>
        rw [hfe] at hd
        have hd2 : (⟨mt, some (mediaFilename mt msgId ts ext), env.diskSize, none⟩
            : MediaDescriptor) = d := Option.some.inj hd
        rw [← hd2]
        exact ⟨getMediaType_ne_skipped _ _ _ hmt, rfl⟩
      | false =>
        rw [hfe] at hd
        cases hok : env.downloadOk with
        | true =>
          rw [hok] at hd
          have hd2 : (⟨mt, some (mediaFilename mt msgId ts ext), env.diskSize, none⟩
              : MediaDescriptor) = d := Option.some.inj hd
          rw [← hd2]
          exact ⟨getMediaType_ne_skipped _ _ _ hmt, rfl⟩
        | false =>
          rw [hok] at hd
          exact Option.noConfusion hd
  · intro mt ext hmt hfe
    rw [downloadMediaFile_typed _ _ _ hgate hmt, hfe]
    cases hok : env.downloadOk <;> rfl
  · intro hmt
    exact downloadMediaFile_untyped _ _ _ hgate hmt

/-- C9 counterexample: media that is neither photo nor document reports
no size, so the gate is bypassed, but `download_media_file` returns
`None` at the media-type check without performing any download —
contradicting the claim that the download proceeds for every such
media. -/
theorem size_gate_bypass_counterexample :
    getMediaSize TLMedia.other = none
    ∧ downloadMediaFile (some TLMedia.other) 1 ("20240101_000000") ⟨false, 0, true⟩
        = ⟨none, false⟩ :=
  ⟨rfl, rfl⟩

/-- Witness for C9's amended theorem: a photo (size `None`) on a fresh
path has its download attempted. -/
theorem size_gate_bypass_amended_witness :
    (downloadMediaFile (some TLMedia.photo) 1 ("20240101_000000")
      ⟨false, 0, true⟩).downloadAttempted = true :=
  (size_gate_bypass_amended TLMedia.photo 1 ("20240101_000000") ⟨false, 0, true⟩
    (Or.inl rfl)).2.1 photoStr jpgExt rfl rfl

/-! ### C3: sync-mode selection and delta persistence -/

/-- C3: when the LocalStore holds a maximum message id `M > 0`,
`download_messages` runs in delta mode and (when the provider's
advisory total is nonzero) fetches and persists exactly the source
records with id greater than `M`; an empty store makes
`get_latest_message_id` return `0` and the run iterates the whole
chat in full-sync mode. -/
theorem download_sync_modes (stored : List ℤ) (source : List SrcMessage) (total : ℕ) :
    (∀ M : ℤ, sqlMax stored = some M → 0 < M →
      (downloadMessages stored source total).mode = SyncMode.deltaSync
      ∧ (total ≠ 0 →
          (downloadMessages stored source total).persisted
            = source.filter (fun x => decide (M < x.msgId))))
    ∧ (stored = [] →
      getLatestMessageId stored = 0
      ∧ (downloadMessages stored source total).mode = SyncMode.fullSync
      ∧ (total ≠ 0 → (downloadMessages stored source total).persisted = source)) := by
  constructor
  · intro M hM hMpos
    have hlatest : getLatestMessageId stored = M := by
      rw [getLatestMessageId, hM]; rfl
    have hne : getLatestMessageId stored ≠ 0 := by omega
    have hMne : M ≠ 0 := by omega
    constructor
    · rw [downloadMessages]
      by_cases ht : total = 0 <;> simp [ht, hne]
    · intro ht
      simp only [downloadMessages, hlatest, if_neg ht, if_pos hMne]
      rfl
  · rintro rfl
    refine ⟨rfl, ?_, ?_⟩
    · rw [downloadMessages]
      by_cases ht : total = 0 <;>
        simp [ht, getLatestMessageId, sqlMax, List.max?]
    · intro ht
      rw [downloadMessages]
      simp only [if_neg ht]
      rfl

/-- Witness for C3: store maximum `5`, source ids `4` and `6`; delta
mode persists only the record with id `6`. -/
theorem download_sync_modes_witness :
    (downloadMessages [5] [⟨4, "a"⟩, ⟨6, "b"⟩] 1).mode = SyncMode.deltaSync
    ∧ (downloadMessages [5] [⟨4, "a"⟩, ⟨6, "b"⟩] 1).persisted = [⟨6, "b"⟩] := by
  have h := (download_sync_modes [5] [⟨4, "a"⟩, ⟨6, "b"⟩] 1).1 5 rfl (by norm_num)
  exact ⟨h.1, h.2 (by norm_num)⟩

/-! ### C10: crawler descriptor keys vs importer attachment keys -/

/-- C10: every descriptor the crawler stores carries only the keys
`type`, `filename`, `size` (and possibly `skipped_reason`), so the
importer's reads of `name`, `mime_type` and `path` all yield `None` and
every attachment row imported from crawler-produced data has NULL
filename, mime_type and file_path. -/
theorem crawler_importer_key_mismatch (media : Option TLMedia) (msgId : ℤ) (ts : String)
    (env : FetchEnv) (d : MediaDescriptor)
    (_hd : (downloadMediaFile media msgId ts env).descriptor = some d) :
    dictGet (descriptorToDict d) keyName = PyVal.vNone
    ∧ dictGet (descriptorToDict d) keyMime = PyVal.vNone
    ∧ dictGet (descriptorToDict d) keyPath = PyVal.vNone
    ∧ ∀ aid docId : ℕ, mkAttRow aid docId (descriptorToDict d)
        = ⟨aid, docId, PyVal.vNone, PyVal.vNone, PyVal.vNone⟩ := by
  obtain ⟨t, f, sz, sk⟩ := d
  cases f <;> cases sk <;> exact ⟨rfl, rfl, rfl, fun _ _ => rfl⟩

/-- Witness for C10: the descriptor the crawler produces for a fresh
photo download yields an all-NULL attachment row in the importer. -/
theorem crawler_importer_key_mismatch_witness :
    mkAttRow 1 2 (descriptorToDict
        ⟨photoStr, some (mediaFilename photoStr 1 ("20240101_000000") jpgExt), 0, none⟩)
      = ⟨1, 2, PyVal.vNone, PyVal.vNone, PyVal.vNone⟩ :=
  (crawler_importer_key_mismatch (some TLMedia.photo) 1 ("20240101_000000") ⟨false, 0, true⟩
    ⟨photoStr, some (mediaFilename photoStr 1 ("20240101_000000") jpgExt), 0, none⟩
    rfl).2.2.2 1 2

/-! ### C8: manifest `first_seen` / `last_seen` semantics -/

/-- C8: `update_chat` on an already-present chat leaves `first_seen`
unchanged (the UPDATE's SET list never mentions it) while setting
`last_seen` and `last_updated` to the current time; on a fresh chat it
writes `first_seen = last_seen = last_updated = now`.  Consequently,
under a forward-moving clock, `last_seen`/`last_updated` never
decrease. -/
theorem update_chat_first_seen (store : List ChatRow) (cd : ChatData) (now : ℚ) :
    (∀ r, store.find? (fun x => x.chatId == cd.chatId) = some r →
      ∃ r', (updateChat store cd now).find? (fun x => x.chatId == cd.chatId) = some r'
        ∧ r'.firstSeen = r.firstSeen ∧ r'.lastSeen = now ∧ r'.lastUpdated = now
        ∧ (r.lastSeen ≤ now → r.lastSeen ≤ r'.lastSeen)
        ∧ (r.lastUpdated ≤ now → r.lastUpdated ≤ r'.lastUpdated))
    ∧ (store.find? (fun x => x.chatId == cd.chatId) = none →
      ∃ r', (updateChat store cd now).find? (fun x => x.chatId == cd.chatId) = some r'
        ∧ r'.firstSeen = now ∧ r'.lastSeen = now ∧ r'.lastUpdated = now) := by
  constructor
  · intro r hr
    rw [updateChat, hr]
    set f : ChatRow → ChatRow := fun row =>
      if row.chatId == cd.chatId then
        { chatId := row.chatId
          name := cd.name
          ctype := cd.ctype
          username := cd.username
          firstSeen := row.firstSeen
          lastSeen := now
          lastUpdated := now
          joinDate := match cd.joinDate, row.joinDate with
            | none, some j => some j
            | jd, _ => jd
          extra := cd.extra }
      else row with hf
    have hpf : ∀ x, ((f x).chatId == cd.chatId) = (x.chatId == cd.chatId) := by
      intro x
      simp only [hf]
      by_cases hx : (x.chatId == cd.chatId) = true
      · rw [if_pos hx]
      · rw [if_neg hx]
    rw [find?_map_pred f _ _ hpf, hr]
    have hpr := List.find?_some hr
    refine ⟨f r, rfl, ?_⟩
    simp only [hf]
    rw [if_pos hpr]
    exact ⟨rfl, rfl, rfl, fun h => h, fun h => h⟩
  · intro hnone
    rw [updateChat, hnone]
    rw [find?_append_none hnone]
    have : ((⟨cd.chatId, cd.name, cd.ctype, cd.username, now, now, now, cd.joinDate, cd.extra⟩
        : ChatRow).chatId == cd.chatId) = true := by
      simp
    rw [List.find?_singleton, if_pos this]
    exact ⟨_, rfl, rfl, rfl, rfl⟩

/-- Witness for C8: updating a stored chat at a later clock value keeps
`first_seen = 0` and advances `last_seen`/`last_updated` to `2`. -/
theorem update_chat_first_seen_witness :
    ∃ r', ((updateChat
        [⟨1, "a", "User", none, 0, 0, 0, none,
          ⟨none, none, none, none, none, none, none, none, none, none, none⟩⟩]
        ⟨1, "b", "User", none, none,
          ⟨none, none, none, none, none, none, none, none, none, none, none⟩⟩ 2).find?
          (fun x => x.chatId == (1 : ℤ))) = some r'
      ∧ r'.firstSeen = 0 ∧ r'.lastSeen = 2 ∧ r'.lastUpdated = 2
      ∧ ((0 : ℚ) ≤ 2 → (0 : ℚ) ≤ r'.lastSeen)
      ∧ ((0 : ℚ) ≤ 2 → (0 : ℚ) ≤ r'.lastUpdated) :=
  (update_chat_first_seen
    [⟨1, "a", "User", none, 0, 0, 0, none,
      ⟨none, none, none, none, none, none, none, none, none, none, none⟩⟩]
    ⟨1, "b", "User", none, none,
      ⟨none, none, none, none, none, none, none, none, none, none, none⟩⟩ 2).1
    ⟨1, "a", "User", none, 0, 0, 0, none,
      ⟨none, none, none, none, none, none, none, none, none, none, none⟩⟩ rfl

/-! ### C2: rate limiter compliance -/

theorem wait_lastRequestTime (s : RateLimiter) (now : ℚ) :
    ((s.wait now).2).lastRequestTime = (s.wait now).1 := rfl

theorem wait_interval (s : RateLimiter) (now : ℚ) :
    ((s.wait now).2).interval = s.interval := rfl

/-- Whatever the entry clock value, a `wait()` call completes no
earlier than one full minimum interval after the previous completion:
the minimum-interval sleep is computed against the entry clock, and the
optional window sleep can only push the completion later. -/
theorem wait_ge (s : RateLimiter) (now : ℚ) :
    s.lastRequestTime + s.interval ≤ (s.wait now).1 := by
  simp only [RateLimiter.wait]
  split_ifs <;> linarith

theorem rlRun_succ (s : RateLimiter) (t0 : ℚ) (δ : ℕ → ℚ) (k : ℕ) :
    rlRun s t0 δ (k + 1) = ((rlRun s t0 δ k).2).wait ((rlRun s t0 δ k).1 + δ k) := rfl

theorem rlRun_lastRequestTime (s : RateLimiter) (t0 : ℚ) (δ : ℕ → ℚ) (k : ℕ) :
    ((rlRun s t0 δ (k + 1)).2).lastRequestTime = (rlRun s t0 δ (k + 1)).1 := rfl

theorem rlRun_interval (s : RateLimiter) (t0 : ℚ) (δ : ℕ → ℚ) :
    ∀ k, ((rlRun s t0 δ k).2).interval = s.interval := by
  intro k
  induction k with
  | zero => rfl
  | succ k ih => rw [rlRun_succ, wait_interval, ih]

/-- Consecutive `wait()` completions are at least one interval apart. -/
theorem rlRun_gap (s : RateLimiter) (t0 : ℚ) (δ : ℕ → ℚ) (k : ℕ) :
    (rlRun s t0 δ (k + 1)).1 + s.interval ≤ (rlRun s t0 δ (k + 2)).1 := by
  have h := wait_ge (rlRun s t0 δ (k + 1)).2 ((rlRun s t0 δ (k + 1)).1 + δ (k + 1))
  rw [rlRun_lastRequestTime, rlRun_interval] at h
  exact h

/-- Completions advance by at least `m` intervals over `m` calls. -/
theorem rlRun_linear (s : RateLimiter) (t0 : ℚ) (δ : ℕ → ℚ) (k : ℕ) :
    ∀ m : ℕ, (rlRun s t0 δ (k + 1)).1 + (m : ℚ) * s.interval ≤ (rlRun s t0 δ (k + 1 + m)).1 := by
  intro m
  induction m with
  | zero => simp
  | succ m ih =>
    have hgap := rlRun_gap s t0 δ (k + m)
    have hidx : k + m + 2 = k + 1 + (m + 1) := by omega
    have hidx2 : k + m + 1 = k + 1 + m := by omega
    rw [hidx, hidx2] at hgap
    push_cast
    nlinarith [ih, hgap]

/-- C2: under the simulated clock, for every initial clock value and
every pattern of caller delays, any two consecutive `wait()` calls
complete at least `1/N` seconds apart, and consequently at most `N`
calls complete within any rolling one-second window `[t, t + 1)` —
not merely within the fixed windows the implementation tracks.
(Calls are numbered from 1; `(rlRun (init N t0) t0 δ k).1` is the
completion clock of the `k`-th call; the second conjunct says the
index span of the calls completing in a common rolling window is at
most `N`.) -/
theorem rate_limiter_compliance (N : ℕ) (hN : 0 < N) (t0 : ℚ) (δ : ℕ → ℚ) :
    (∀ k, (rlRun (RateLimiter.init N t0) t0 δ (k + 1)).1 + 1 / (N : ℚ)
        ≤ (rlRun (RateLimiter.init N t0) t0 δ (k + 2)).1)
    ∧ ∀ (t : ℚ) (i j : ℕ), i ≤ j →
        t ≤ (rlRun (RateLimiter.init N t0) t0 δ (i + 1)).1 →
        (rlRun (RateLimiter.init N t0) t0 δ (j + 1)).1 < t + 1 →
        j - i + 1 ≤ N := by
  have hint : (RateLimiter.init N t0).interval = 1 / (N : ℚ) := rfl
  constructor
  · intro k
    have h := rlRun_gap (RateLimiter.init N t0) t0 δ k
    rw [hint] at h
    exact h
  · intro t i j hij hti htj
    have hlin := rlRun_linear (RateLimiter.init N t0) t0 δ i (j - i)
    rw [hint] at hlin
    have hidx : i + 1 + (j - i) = j + 1 := by omega
    rw [hidx] at hlin
    have hNpos : (0 : ℚ) < (N : ℚ) := by exact_mod_cast hN
    have hlt : ((j - i : ℕ) : ℚ) * (1 / (N : ℚ)) < 1 := by linarith
    have hcast : ((j - i : ℕ) : ℚ) < (N : ℚ) := by
      rw [mul_one_div] at hlt
      exact (div_lt_one hNpos).mp hlt
    have : (j - i : ℕ) < N := by exact_mod_cast hcast
    omega

/-- Witness for C2: with `N = 1` the second call completes at least one
second after the first. -/
theorem rate_limiter_compliance_witness :
    (rlRun (RateLimiter.init 1 0) 0 (fun _ => 0) 1).1 + 1 / ((1 : ℕ) : ℚ)
      ≤ (rlRun (RateLimiter.init 1 0) 0 (fun _ => 0) 2).1 :=
  (rate_limiter_compliance 1 Nat.one_pos 0 (fun _ => 0)).1 0

/-! ### Shape lemmas for the importer's loop body -/

/-- Contact resolution only ever appends to the `contact` table. -/
theorem resolveContact_snd_eq (w : Warehouse) (s : Option String) :
    ∃ tc, (resolveContact w s).2
      = { w with contacts := w.contacts ++ tc, nextContact := w.nextContact + tc.length } := by
  cases s with
  | none =>
    refine ⟨[], ?_⟩
    cases w
    simp [resolveContact]
  | some s =>
    by_cases hs : s = ""
    · subst hs
      refine ⟨[], ?_⟩
      cases w
      simp [resolveContact]
    · simp only [resolveContact, if_neg hs]
      cases hfc : findContact w s with
      | some c =>
        refine ⟨[], ?_⟩
        cases w
        simp
      | none => exact ⟨[⟨w.nextContact, s⟩], rfl⟩

/-- The attachment block only ever appends to the `attachment` table. -/
theorem insertAttachments_snd_eq (w : Warehouse) (d : ℕ) (mf : Option MediaFilesField) :
    ∃ ta n, insertAttachments w d mf
      = { w with attachments := w.attachments ++ ta, nextAtt := n } := by
  cases mf with
  | none =>
    refine ⟨[], w.nextAtt, ?_⟩
    cases w
    simp [insertAttachments]
  | some f =>
    cases f with
    | malformed =>
      refine ⟨[], w.nextAtt, ?_⟩
      cases w
      simp [insertAttachments]
    | parsed fs => exact ⟨attRowsFrom w.nextAtt d fs, w.nextAtt + fs.length, rfl⟩

/-- The passage block only ever appends to the `passage` and
`passage_embedding` tables. -/
theorem insertPassage_snd_eq (e : String → Option (List ℚ)) (w : Warehouse) (d : ℕ)
    (text : String) :
    ∃ tp te np ne, insertPassage e w d text
      = { w with passages := w.passages ++ tp
                 passageEmbeddings := w.passageEmbeddings ++ te
                 nextPass := np
                 nextPemb := ne } := by
  simp only [insertPassage]
  split_ifs with h
  · exact ⟨_, _, _, _, rfl⟩
  · refine ⟨[], [], w.nextPass, w.nextPemb, ?_⟩
    cases w
    simp

/-! ### Field lemmas for the attachment and passage blocks -/

theorem insertAttachments_sources (w : Warehouse) (d : ℕ) (mf : Option MediaFilesField) :
    (insertAttachments w d mf).sources = w.sources := by
  cases mf with
  | none => rfl
  | some f => cases f <;> rfl

theorem insertAttachments_contacts (w : Warehouse) (d : ℕ) (mf : Option MediaFilesField) :
    (insertAttachments w d mf).contacts = w.contacts := by
  cases mf with
  | none => rfl
  | some f => cases f <;> rfl

theorem insertAttachments_documents (w : Warehouse) (d : ℕ) (mf : Option MediaFilesField) :
    (insertAttachments w d mf).documents = w.documents := by
  cases mf with
  | none => rfl
  | some f => cases f <;> rfl

theorem insertAttachments_passages (w : Warehouse) (d : ℕ) (mf : Option MediaFilesField) :
    (insertAttachments w d mf).passages = w.passages := by
  cases mf with
  | none => rfl
  | some f => cases f <;> rfl

theorem insertAttachments_passageEmbeddings (w : Warehouse) (d : ℕ) (mf : Option MediaFilesField) :
    (insertAttachments w d mf).passageEmbeddings = w.passageEmbeddings := by
  cases mf with
  | none => rfl
  | some f => cases f <;> rfl

theorem insertAttachments_nextPass (w : Warehouse) (d : ℕ) (mf : Option MediaFilesField) :
    (insertAttachments w d mf).nextPass = w.nextPass := by
  cases mf with
  | none => rfl
  | some f => cases f <;> rfl

theorem insertAttachments_nextPemb (w : Warehouse) (d : ℕ) (mf : Option MediaFilesField) :
    (insertAttachments w d mf).nextPemb = w.nextPemb := by
  cases mf with
  | none => rfl
  | some f => cases f <;> rfl

theorem insertPassage_sources (e : String → Option (List ℚ)) (w : Warehouse) (d : ℕ)
    (text : String) : (insertPassage e w d text).sources = w.sources := by
  simp only [insertPassage]
  split_ifs <;> rfl

theorem insertPassage_contacts (e : String → Option (List ℚ)) (w : Warehouse) (d : ℕ)
    (text : String) : (insertPassage e w d text).contacts = w.contacts := by
  simp only [insertPassage]
  split_ifs <;> rfl

theorem insertPassage_documents (e : String → Option (List ℚ)) (w : Warehouse) (d : ℕ)
    (text : String) : (insertPassage e w d text).documents = w.documents := by
  simp only [insertPassage]
  split_ifs <;> rfl

/-! ### Characterization of the loop body -/

theorem processRecordNF_of_found (e : String → Option (List ℚ)) (c : ℤ) (sid : ℕ)
    (w : Warehouse) (r : MsgRow) {d : DocRow}
    (hfd : findDoc w sid (toString r.msgId) = some d) :
    processRecordNF e c sid w r = (resolveContact w r.sender).2 := by
  obtain ⟨tc, hc⟩ := resolveContact_snd_eq w r.sender
  have h2 : findDoc (resolveContact w r.sender).2 sid (toString r.msgId) = some d := by
    rw [findDoc, hc]
    rw [findDoc] at hfd
    simpa using hfd
  simp only [processRecordNF]
  rw [h2]

theorem processRecordNF_of_new (e : String → Option (List ℚ)) (c : ℤ) (sid : ℕ)
    (w : Warehouse) (r : MsgRow)
    (hfd : findDoc w sid (toString r.msgId) = none) :
    processRecordNF e c sid w r =
      insertPassage e
        (insertAttachments
          { (resolveContact w r.sender).2 with
              documents := (resolveContact w r.sender).2.documents
                ++ [docRowOf (resolveContact w r.sender).2 c sid r
                      (resolveContact w r.sender).1 (r.text.getD "")]
              nextDoc := (resolveContact w r.sender).2.nextDoc + 1 }
          (resolveContact w r.sender).2.nextDoc r.mediaFiles)
        (resolveContact w r.sender).2.nextDoc (r.text.getD "") := by
  obtain ⟨tc, hc⟩ := resolveContact_snd_eq w r.sender
  have h2 : findDoc (resolveContact w r.sender).2 sid (toString r.msgId) = none := by
    rw [findDoc, hc]
    rw [findDoc] at hfd
    simpa using hfd
  simp only [processRecordNF]
  rw [h2]

/-! ### Idempotency infrastructure (C1) -/

/-- `w'` extends `w`: same `source` rows, and `contact`/`document` rows
only appended. -/
def Extends (w w' : Warehouse) : Prop :=
  w'.sources = w.sources
  ∧ (∃ t, w'.contacts = w.contacts ++ t)
  ∧ (∃ t, w'.documents = w.documents ++ t)

theorem extends_refl (w : Warehouse) : Extends w w :=
  ⟨rfl, ⟨[], by simp⟩, ⟨[], by simp⟩⟩

theorem extends_trans {w1 w2 w3 : Warehouse} (h12 : Extends w1 w2) (h23 : Extends w2 w3) :
    Extends w1 w3 := by
  obtain ⟨hs12, ⟨tc12, hc12⟩, ⟨td12, hd12⟩⟩ := h12
  obtain ⟨hs23, ⟨tc23, hc23⟩, ⟨td23, hd23⟩⟩ := h23
  refine ⟨hs23.trans hs12, ⟨tc12 ++ tc23, ?_⟩, ⟨td12 ++ td23, ?_⟩⟩
  · rw [hc23, hc12, List.append_assoc]
  · rw [hd23, hd12, List.append_assoc]

/-- The record `r` already has its document row in `w` (for source
`sid`). -/
def docEnsured (sid : ℕ) (w : Warehouse) (r : MsgRow) : Prop :=
  ∃ d, findDoc w sid (toString r.msgId) = some d

/-- The record `r`'s truthy sender already has its contact row in
`w`. -/
def contactEnsured (w : Warehouse) (r : MsgRow) : Prop :=
  ∀ s, r.sender = some s → s ≠ "" → ∃ cr, findContact w s = some cr

theorem docEnsured_extends {sid : ℕ} {w w' : Warehouse} {r : MsgRow}
    (h : Extends w w') (hd : docEnsured sid w r) : docEnsured sid w' r := by
  obtain ⟨d, hfd⟩ := hd
  obtain ⟨-, -, td, htd⟩ := h
  refine ⟨d, ?_⟩
  rw [findDoc, htd]
  rw [findDoc] at hfd
  exact find?_append_some _ hfd

theorem contactEnsured_extends {w w' : Warehouse} {r : MsgRow}
    (h : Extends w w') (hc : contactEnsured w r) : contactEnsured w' r := by
  intro s hs hse
  obtain ⟨cr, hcr⟩ := hc s hs hse
  obtain ⟨-, ⟨tc, htc⟩, -⟩ := h
  refine ⟨cr, ?_⟩
  rw [findContact, htc]
  rw [findContact] at hcr
  exact find?_append_some _ hcr

/-- When a record's document and contact already exist, the loop body
is a no-op: the lookups find the existing rows and the conflict policy
skips all downstream work. -/
theorem processRecordNF_noop (e : String → Option (List ℚ)) (c : ℤ) (sid : ℕ)
    (w : Warehouse) (r : MsgRow)
    (hdoc : docEnsured sid w r) (hcon : contactEnsured w r) :
    processRecordNF e c sid w r = w := by
  obtain ⟨d, hd⟩ := hdoc
  have hrc : (resolveContact w r.sender).2 = w := by
    cases hs : r.sender with
    | none => rfl
    | some s =>
      by_cases hse : s = ""
      · subst hse
        rfl
      · obtain ⟨cr, hcr⟩ := hcon s hs hse
        simp only [resolveContact, if_neg hse, hcr]
  rw [processRecordNF_of_found e c sid w r hd, hrc]

/-- After the loop body runs on `r`, the record's document row exists. -/
theorem processRecordNF_docEnsured (e : String → Option (List ℚ)) (c : ℤ) (sid : ℕ)
    (w : Warehouse) (r : MsgRow) :
    docEnsured sid (processRecordNF e c sid w r) r := by
  obtain ⟨tc, hc⟩ := resolveContact_snd_eq w r.sender
  cases hfd : findDoc w sid (toString r.msgId) with
  | some d =>
    rw [processRecordNF_of_found e c sid w r hfd]
    refine ⟨d, ?_⟩
    rw [findDoc, hc]
    rw [findDoc] at hfd
    simpa using hfd
  | none =>
    rw [processRecordNF_of_new e c sid w r hfd]
    rw [docEnsured, findDoc, insertPassage_documents, insertAttachments_documents]
    have hp : (fun dr : DocRow => dr.sourceId == sid && dr.extId == toString r.msgId)
        (docRowOf (resolveContact w r.sender).2 c sid r
          (resolveContact w r.sender).1 (r.text.getD "")) = true := by
      simp [docRowOf]
    exact find?_append_right_isSome _ _ hp

/-- After the loop body runs on `r`, the record's (truthy) sender has a
contact row. -/
theorem processRecordNF_contactEnsured (e : String → Option (List ℚ)) (c : ℤ) (sid : ℕ)
    (w : Warehouse) (r : MsgRow) :
    contactEnsured (processRecordNF e c sid w r) r := by
  intro s hs hse
  have h1 : ∃ cr, findContact (resolveContact w r.sender).2 s = some cr := by
    rw [hs]
    simp only [resolveContact, if_neg hse]
    cases hfc : findContact w s with
    | some cr => exact ⟨cr, hfc⟩
    | none =>
      refine ⟨⟨w.nextContact, s⟩, ?_⟩
      rw [findContact]
      show (w.contacts ++ [(⟨w.nextContact, s⟩ : ContactRow)]).find? _ = _
      rw [findContact] at hfc
      rw [find?_append_none hfc, List.find?_singleton, if_pos (by simp)]
  obtain ⟨cr, hcr⟩ := h1
  refine ⟨cr, ?_⟩
  cases hfd : findDoc w sid (toString r.msgId) with
  | some d =>
    rw [processRecordNF_of_found e c sid w r hfd]
    exact hcr
  | none =>
    rw [processRecordNF_of_new e c sid w r hfd]
    rw [findContact, insertPassage_contacts, insertAttachments_contacts]
    rw [findContact] at hcr
    simpa using hcr

/-- The loop body only extends the warehouse. -/
theorem processRecordNF_extends (e : String → Option (List ℚ)) (c : ℤ) (sid : ℕ)
    (w : Warehouse) (r : MsgRow) :
    Extends w (processRecordNF e c sid w r) := by
  obtain ⟨tc, hc⟩ := resolveContact_snd_eq w r.sender
  cases hfd : findDoc w sid (toString r.msgId) with
  | some d =>
    rw [processRecordNF_of_found e c sid w r hfd, hc]
    exact ⟨rfl, ⟨tc, rfl⟩, ⟨[], by simp⟩⟩
  | none =>
    rw [processRecordNF_of_new e c sid w r hfd]
    refine ⟨?_, ⟨tc, ?_⟩,
      ⟨[docRowOf (resolveContact w r.sender).2 c sid r
          (resolveContact w r.sender).1 (r.text.getD "")], ?_⟩⟩
    · rw [insertPassage_sources, insertAttachments_sources, hc]
    · rw [insertPassage_contacts, insertAttachments_contacts, hc]
    · rw [insertPassage_documents, insertAttachments_documents, hc]

theorem foldl_extends (e : String → Option (List ℚ)) (c : ℤ) (sid : ℕ) (recs : List MsgRow) :
    ∀ w, Extends w (recs.foldl (processRecordNF e c sid) w) := by
  induction recs with
  | nil => intro w; exact extends_refl w
  | cons r rest ih =>
    intro w
    rw [List.foldl_cons]
    exact extends_trans (processRecordNF_extends e c sid w r) (ih (processRecordNF e c sid w r))

theorem fold_ensured (e : String → Option (List ℚ)) (c : ℤ) (sid : ℕ) (recs : List MsgRow) :
    ∀ w r, r ∈ recs →
      docEnsured sid (recs.foldl (processRecordNF e c sid) w) r
      ∧ contactEnsured (recs.foldl (processRecordNF e c sid) w) r := by
  induction recs with
  | nil =>
    intro w r hr
    cases hr
  | cons r0 rest ih =>
    intro w r hr
    rw [List.foldl_cons]
    rcases List.mem_cons.mp hr with rfl | hr'
    · constructor
      · exact docEnsured_extends (foldl_extends e c sid rest _)
          (processRecordNF_docEnsured e c sid w r)
      · exact contactEnsured_extends (foldl_extends e c sid rest _)
          (processRecordNF_contactEnsured e c sid w r)
    · exact ih (processRecordNF e c sid w r0) r hr'

theorem fold_noop (e : String → Option (List ℚ)) (c : ℤ) (sid : ℕ) (recs : List MsgRow)
    (w : Warehouse) (h : ∀ r ∈ recs, docEnsured sid w r ∧ contactEnsured w r) :
    recs.foldl (processRecordNF e c sid) w = w := by
  induction recs with
  | nil => rfl
  | cons r rest ih =>
    rw [List.foldl_cons,
        processRecordNF_noop e c sid w r (h r (by simp)).1 (h r (by simp)).2]
    exact ih fun r' hr' => h r' (by simp [hr'])

theorem ensureSource_finds (w : Warehouse) (c : ℤ) :
    ∃ row, findSource (ensureSource w c).2 (toString c) = some row
      ∧ row.sid = (ensureSource w c).1 := by
  cases hfs : findSource w (toString c) with
  | some r0 =>
    simp only [ensureSource, hfs]
    exact ⟨r0, rfl, rfl⟩
  | none =>
    simp only [ensureSource, hfs]
    refine ⟨⟨w.nextSource, toString c, chatKindStr⟩, ?_, rfl⟩
    rw [findSource]
    show (w.sources ++ [(⟨w.nextSource, toString c, chatKindStr⟩ : SourceRow)]).find? _ = _
    rw [findSource] at hfs
    rw [find?_append_none hfs, List.find?_singleton, if_pos (by simp)]

theorem ensureSource_of_found (w : Warehouse) (c : ℤ) (row : SourceRow)
    (h : findSource w (toString c) = some row) : ensureSource w c = (row.sid, w) := by
  simp only [ensureSource, h]

/-- C1: re-running `import_chat` over an unchanged LocalStore is a
complete no-op on the warehouse — the source and contact lookups find
the rows the first run ensured, every document insert hits the
`(source_id, ext_id)` conflict and skips all downstream work — so the
warehouse after the second run is literally the warehouse after the
first run, and in particular the row counts of `source`, `contact`,
`document`, `attachment`, `passage` and `passage_embedding` are
unchanged. -/
theorem import_chat_idempotent (e : String → Option (List ℚ)) (c : ℤ)
    (w : Warehouse) (recs : List MsgRow) :
    importChatNF e c (importChatNF e c w recs) recs = importChatNF e c w recs
    ∧ rowCounts (importChatNF e c (importChatNF e c w recs) recs)
        = rowCounts (importChatNF e c w recs) := by
  obtain ⟨row, hrow, hsid⟩ := ensureSource_finds w c
  have hsrc1 : findSource (importChatNF e c w recs) (toString c) = some row := by
    have hs := (foldl_extends e c (ensureSource w c).1 recs (ensureSource w c).2).1
    rw [findSource]
    rw [show (importChatNF e c w recs).sources = (ensureSource w c).2.sources from hs]
    rw [findSource] at hrow
    exact hrow
  have hens : ensureSource (importChatNF e c w recs) c
      = ((ensureSource w c).1, importChatNF e c w recs) := by
    rw [ensureSource_of_found _ c row hsrc1, hsid]
  have main : importChatNF e c (importChatNF e c w recs) recs = importChatNF e c w recs := by
    show recs.foldl (processRecordNF e c (ensureSource (importChatNF e c w recs) c).1)
        (ensureSource (importChatNF e c w recs) c).2 = importChatNF e c w recs
    rw [hens]
    exact fold_noop e c (ensureSource w c).1 recs (importChatNF e c w recs)
      fun r hr => fold_ensured e c (ensureSource w c).1 recs (ensureSource w c).2 r hr
  exact ⟨main, by rw [main]⟩

/-! ### C7: passage creation gate -/

/-- C7: when a record's document row is newly inserted, exactly one
passage — level `'P'`, token range `0 .. len(text.split())`, text the
whole trimmed message — and exactly one passage-embedding row
referencing it are created if and only if the trimmed text is non-empty
with more than 10 words; otherwise neither table changes.  The passage
references the new document (`w.nextDoc`), and the embedding row
references the new passage (`w.nextPass`) with model `'llama-server'`
and the `get_embedding_from_server` vector. -/
theorem passage_creation (e : String → Option (List ℚ)) (c : ℤ) (sid : ℕ)
    (w : Warehouse) (r : MsgRow)
    (hnew : findDoc w sid (toString r.msgId) = none) :
    (∃ dr, (processRecordNF e c sid w r).documents = w.documents ++ [dr]
        ∧ dr.did = w.nextDoc)
    ∧ ((pyStrip (r.text.getD "") ≠ "" ∧ 10 < pyWordCount (pyStrip (r.text.getD ""))) →
      (processRecordNF e c sid w r).passages
        = w.passages ++ [⟨w.nextPass, w.nextDoc, 'P', 0,
            pyWordCount (pyStrip (r.text.getD "")), pyStrip (r.text.getD "")⟩]
      ∧ (processRecordNF e c sid w r).passageEmbeddings
        = w.passageEmbeddings ++ [⟨w.nextPemb, w.nextPass, modelLlama,
            getEmbeddingFromServer (pyStrip (r.text.getD "")) EMB_DIM
              (e (pyStrip (r.text.getD "")))⟩])
    ∧ (¬(pyStrip (r.text.getD "") ≠ "" ∧ 10 < pyWordCount (pyStrip (r.text.getD ""))) →
      (processRecordNF e c sid w r).passages = w.passages
      ∧ (processRecordNF e c sid w r).passageEmbeddings = w.passageEmbeddings) := by
  obtain ⟨tc, hc⟩ := resolveContact_snd_eq w r.sender
  rw [processRecordNF_of_new e c sid w r hnew]
  refine ⟨⟨docRowOf (resolveContact w r.sender).2 c sid r
      (resolveContact w r.sender).1 (r.text.getD ""), ?_, ?_⟩, ?_, ?_⟩
  · rw [insertPassage_documents, insertAttachments_documents, hc]
  · rw [docRowOf, hc]
  · intro hcond
    constructor
    · simp only [insertPassage]
      rw [if_pos hcond]
      simp only [addPass, addPemb]
      rw [insertAttachments_passages, insertAttachments_nextPass, hc]
    · simp only [insertPassage]
      rw [if_pos hcond]
      simp only [addPass, addPemb]
      rw [insertAttachments_passageEmbeddings, insertAttachments_nextPemb,
          insertAttachments_nextPass, hc]
  · intro hcond
    constructor
    · simp only [insertPassage]
      rw [if_neg hcond, insertAttachments_passages, hc]
    · simp only [insertPassage]
      rw [if_neg hcond, insertAttachments_passageEmbeddings, hc]

/-- Witness for C7: an 11-word message imported into an empty warehouse
produces exactly one passage row spanning the whole text. -/
theorem passage_creation_witness :
    (processRecordNF (fun _ => none) 7 1
        ⟨[], [], [], [], [], [], 1, 1, 1, 1, 1, 1⟩
        ⟨1, "d1", none, some "a b c d e f g h i j k", none, none⟩).passages
      = [⟨1, 1, 'P', 0, 11, "a b c d e f g h i j k"⟩] :=
  ((passage_creation (fun _ => none) 7 1
      ⟨[], [], [], [], [], [], 1, 1, 1, 1, 1, 1⟩
      ⟨1, "d1", none, some "a b c d e f g h i j k", none, none⟩ rfl).2.1
    (by decide)).1

/-! ### C6: exception containment in the import loop -/

theorem processRecordE_noFaults (e : String → Option (List ℚ)) (c : ℤ) (sid : ℕ)
    (w : Warehouse) (r : MsgRow) :
    processRecordE noFaults e c sid w r = Except.ok (processRecordNF e c sid w r) := by
  simp only [processRecordE, processRecordNF, noFaults, Bool.and_false, Bool.false_eq_true,
    if_false, insertPassage]
  cases hfd : findDoc (resolveContact w r.sender).2 sid (toString r.msgId) with
  | some d => rfl
  | none => split_ifs <;> rfl

theorem foldlM_ok {α β ε : Type} (f : β → α → Except ε β) (g : β → α → β)
    (hfg : ∀ b a, f b a = Except.ok (g b a)) :
    ∀ (l : List α) (b : β), l.foldlM f b = Except.ok (l.foldl g b) := by
  intro l
  induction l with
  | nil => intro b; rfl
  | cons a t ih =>
    intro b
    rw [List.foldlM_cons, hfg]
    show t.foldlM f (g b a) = _
    rw [ih (g b a), List.foldl_cons]

theorem importChatE_noFaults (e : String → Option (List ℚ)) (c : ℤ)
    (w : Warehouse) (recs : List MsgRow) :
    importChatE noFaults e c w recs = Except.ok (importChatNF e c w recs) := by
  show recs.foldlM (processRecordE noFaults e c (ensureSource w c).1) (ensureSource w c).2
      = Except.ok (recs.foldl (processRecordNF e c (ensureSource w c).1) (ensureSource w c).2)
  exact foldlM_ok _ _ (fun b a => processRecordE_noFaults e c (ensureSource w c).1 b a)
    recs (ensureSource w c).2

theorem processRecordNF_scrub (e : String → Option (List ℚ)) (c : ℤ) (sid : ℕ)
    (w : Warehouse) (r : MsgRow) :
    processRecordNF e c sid w (scrubMalformed r) = processRecordNF e c sid w r := by
  obtain ⟨mid, dt, fid, tx, sd, mf⟩ := r
  cases mf with
  | none => rfl
  | some f => cases f <;> rfl

theorem importChatNF_scrub (e : String → Option (List ℚ)) (c : ℤ)
    (w : Warehouse) (recs : List MsgRow) :
    importChatNF e c w (recs.map scrubMalformed) = importChatNF e c w recs := by
  show (recs.map scrubMalformed).foldl (processRecordNF e c (ensureSource w c).1)
        (ensureSource w c).2
      = recs.foldl (processRecordNF e c (ensureSource w c).1) (ensureSource w c).2
  generalize (ensureSource w c).2 = w0
  induction recs generalizing w0 with
  | nil => rfl
  | cons r t ih =>
    rw [List.map_cons, List.foldl_cons, List.foldl_cons, processRecordNF_scrub]
    exact ih _

/-- C6 amended: with no database faults injected, `import_chat` always
completes — in particular a record whose stored `media_files` JSON is
malformed only loses its attachment rows (its exception is caught
inside the attachment `try`), and the run produces exactly the
warehouse of the same records with their malformed media fields
scrubbed.  (Database exceptions at the contact, document, passage or
embedding statements are *not* caught: see the counterexample.) -/
theorem import_chat_error_containment (e : String → Option (List ℚ)) (c : ℤ)
    (w : Warehouse) (recs : List MsgRow) :
    importChatE noFaults e c w recs
      = Except.ok (importChatNF e c w (recs.map scrubMalformed)) := by
  rw [importChatE_noFaults, importChatNF_scrub]

/-- A database fault at the passage INSERT of the record with id 1. -/
def faultPassage : FaultOracle :=
  fun m st => decide (m = 1) && decide (st = Step.passage)

/-- C6 counterexample: a database exception raised at the passage
INSERT of the first record aborts the whole `import_chat` run (the
result is an error, and the second record is never imported) — the
exception is not caught and the loop does not continue, contrary to the
claim. -/
theorem import_chat_abort_counterexample :
    importChatE faultPassage (fun _ => none) 7
        ⟨[], [], [], [], [], [], 1, 1, 1, 1, 1, 1⟩
        [⟨1, "d1", none, some "a b c d e f g h i j k", none, none⟩,
         ⟨2, "d2", none, some "x", none, none⟩]
      = Except.error (1, Step.passage) := by
  rfl

end Memefax
